import Mathlib

/-!
Verification of the meditimeline medication catalog service.

The embedding follows `src/backend/medications/`:
- `models.py`: the `Medication` entity with its field constraints,
  `clean` (cross-field end-date rule), `full_clean` and `save`;
- `serializers.py`: `MedicationSerializer` with its field-level checks
  (derived from the model field declarations via `ModelSerializer`),
  the cross-field `validate` method, and wire serialization;
- `views.py`: the read-only listing ordered by `(start_date, id)` and
  retrieval by id.

Calendar dates are modelled as (year, month, day) triples compared
lexicographically, which agrees with Python `datetime.date` comparison.
The relational store is modelled as an explicit list of persisted rows
plus an id counter; `save` is explicit state passing.
-/

namespace MediTimeline

/-- A calendar date, compared lexicographically like Python `datetime.date`. -/
structure Date where
  year : Nat
  month : Nat
  day : Nat
deriving DecidableEq, Repr

/-- Strict comparison of dates: lexicographic on (year, month, day),
matching Python `date.__lt__`. -/
def Date.Lt (a b : Date) : Prop :=
  a.year < b.year ∨ (a.year = b.year ∧
    (a.month < b.month ∨ (a.month = b.month ∧ a.day < b.day)))

instance (a b : Date) : Decidable (Date.Lt a b) := by
  unfold Date.Lt; infer_instance

/-- Left-pad the decimal representation of `n` with zeros to width `w`. -/
def padNat (w n : Nat) : String :=
  let s := toString n
  String.mk (List.replicate (w - s.length) '0') ++ s

/-- `date.isoformat()` of Python: `YYYY-MM-DD`. -/
def Date.isoformat (d : Date) : String :=
  padNat 4 d.year ++ "-" ++ padNat 2 d.month ++ "-" ++ padNat 2 d.day

/-- An in-memory `Medication` model instance, as in `models.py`.
`id` is `none` before the record is first persisted.
Text fields are `none` to model Python `None` (a missing value), and may
also be the empty string (Django treats blank `CharField`s as invalid
since `blank=False`).  `end_date` is nullable (`null=True, blank=True`). -/
structure Medication where
  id : Option Nat
  name : Option String
  dose : Option String
  route : Option String
  start_date : Option Date
  end_date : Option Date
  facility : Option String
deriving DecidableEq, Repr

/-- Errors `Medication.save` can raise: a Django `ValidationError`
carrying field-keyed messages, or a Python `TypeError` (comparing a date
with `None` in `clean`). -/
inductive SaveError
  | validation (errors : List (String × String))
  | typeError
deriving DecidableEq, Repr

/-- Django's `clean_fields` checks for one `CharField(max_length=...)`
with `null=False, blank=False`: `None` is a null error, the empty string
a blank error, an overlong value a max-length error. -/
def charFieldErrors (field : String) (maxLength : Nat) (v : Option String) :
    List (String × String) :=
  match v with
  | none => [(field, "This field cannot be null.")]
  | some s =>
    if s.length = 0 then [(field, "This field cannot be blank.")]
    else if maxLength < s.length then
      [(field, "Ensure this value has at most " ++ toString maxLength ++
        " characters (it has " ++ toString s.length ++ ").")]
    else []

/-- Django's `clean_fields` checks for a `DateField`; `nullable` is the
field's `null` option. -/
def dateFieldErrors (field : String) (nullable : Bool) (v : Option Date) :
    List (String × String) :=
  match v with
  | none => if nullable then [] else [(field, "This field cannot be null.")]
  | some _ => []

/-- `Model.clean_fields` over the fields declared in `models.py`:
`name` (≤200), `dose` (≤100), `route` (≤50), `start_date` (required),
`end_date` (nullable), `facility` (≤200). -/
def Medication.clean_fields (m : Medication) : List (String × String) :=
  charFieldErrors "name" 200 m.name ++
  charFieldErrors "dose" 100 m.dose ++
  charFieldErrors "route" 50 m.route ++
  dateFieldErrors "start_date" false m.start_date ++
  dateFieldErrors "end_date" true m.end_date ++
  charFieldErrors "facility" 200 m.facility

/-- Outcome of `Medication.clean`. -/
inductive CleanResult
  | ok
  | validationError (errors : List (String × String))
  | typeError
deriving DecidableEq, Repr

/-- `Medication.clean` from `models.py`:
`if self.end_date and self.end_date < self.start_date: raise
ValidationError({'end_date': 'End date cannot be before start date.'})`.
A `date` is always truthy in Python; comparing a date with `None`
(end date present, start date `None`) raises `TypeError`. -/
def Medication.clean (m : Medication) : CleanResult :=
  match m.end_date with
  | none => .ok
  | some e =>
    match m.start_date with
    | none => .typeError
    | some s =>
      if Date.Lt e s then
        .validationError [("end_date", "End date cannot be before start date.")]
      else .ok

/-- Django's `Model.full_clean`: collect `clean_fields` errors, then run
`clean` (which runs even when field errors exist); a `TypeError` from
`clean` propagates uncaught; otherwise all collected errors are raised
together as one `ValidationError`. -/
def Medication.full_clean (m : Medication) : Except SaveError Unit :=
  let fieldErrs := m.clean_fields
  match m.clean with
  | .typeError => .error .typeError
  | .validationError es => .error (.validation (fieldErrs ++ es))
  | .ok =>
    if fieldErrs.isEmpty then .ok ()
    else .error (.validation fieldErrs)

/-- A persisted medication row: all required fields are materialized. -/
structure StoredMedication where
  id : Nat
  name : String
  dose : String
  route : String
  start_date : Date
  end_date : Option Date
  facility : String
deriving DecidableEq, Repr

/-- The relational store: persisted rows and the auto-id counter. -/
structure Store where
  rows : List StoredMedication
  nextId : Nat
deriving DecidableEq, Repr

/-- `Medication.save` from `models.py`: `self.full_clean()` runs to
completion first; on failure the error propagates and the store is
untouched; on success the row is inserted (with a fresh id when `id` is
`none`) or replaces the row with the same id.  The final catch-all
branch is unreachable: `full_clean` succeeding forces every required
field to be present. -/
def Medication.save (m : Medication) (st : Store) :
    Store × Except SaveError StoredMedication :=
  match m.full_clean with
  | .error e => (st, .error e)
  | .ok _ =>
    match m.name, m.dose, m.route, m.start_date, m.facility with
    | some n, some d, some r, some s, some f =>
      let newId := m.id.getD st.nextId
      let row : StoredMedication :=
        ⟨newId, n, d, r, s, m.end_date, f⟩
      (⟨st.rows.filter (fun x => x.id ≠ newId) ++ [row],
        max st.nextId (newId + 1)⟩, .ok row)
    | _, _, _, _, _ => (st, .error .typeError)

/-- The data dictionary passed to `MedicationSerializer.validate`:
validated field values, a key being absent modelled as `none`. -/
structure PayloadData where
  name : Option String
  dose : Option String
  route : Option String
  start_date : Option Date
  end_date : Option Date
  facility : Option String
deriving DecidableEq, Repr

/-- `MedicationSerializer.validate` from `serializers.py`:
`data.get('start_date')` / `data.get('end_date')`, then
`if end_date and start_date and end_date < start_date: raise
ValidationError({'end_date': 'End date cannot be before start date.'})`,
else `return data`. -/
def MedicationSerializer.validate (data : PayloadData) :
    Except (List (String × String)) PayloadData :=
  match data.end_date, data.start_date with
  | some e, some s =>
    if Date.Lt e s then
      .error [("end_date", "End date cannot be before start date.")]
    else .ok data
  | _, _ => .ok data

/-- DRF field-level checks for one required `CharField` built by
`ModelSerializer` from a model `CharField(max_length=...)`: the field is
required, blank is not allowed, and the max length is enforced. -/
def serializerCharErrors (field : String) (maxLength : Nat)
    (v : Option String) : List (String × String) :=
  match v with
  | none => [(field, "This field is required.")]
  | some s =>
    if s.length = 0 then [(field, "This field may not be blank.")]
    else if maxLength < s.length then
      [(field, "Ensure this field has no more than " ++
        toString maxLength ++ " characters.")]
    else []

/-- DRF field-level checks of `MedicationSerializer` derived from the
model declaration: `name`, `dose`, `route`, `facility` required with
their max lengths, `start_date` required, `end_date` optional and
nullable; `id` is read-only and takes no input. -/
def MedicationSerializer.field_errors (p : PayloadData) :
    List (String × String) :=
  serializerCharErrors "name" 200 p.name ++
  serializerCharErrors "dose" 100 p.dose ++
  serializerCharErrors "route" 50 p.route ++
  (match p.start_date with
   | none => [("start_date", "This field is required.")]
   | some _ => []) ++
  serializerCharErrors "facility" 200 p.facility

/-- The serializer's full input validation (`validate_payload` of the
spec): DRF runs the field-level checks first and raises their errors
without calling `validate`; only when every field passes does the
cross-field `validate` run. -/
def MedicationSerializer.run_validation (p : PayloadData) :
    Except (List (String × String)) PayloadData :=
  let fe := MedicationSerializer.field_errors p
  if fe.isEmpty then MedicationSerializer.validate p
  else .error fe

/-- A JSON value as produced on the wire. -/
inductive JsonValue
  | str (s : String)
  | num (n : Nat)
  | null
deriving DecidableEq, Repr

/-- `MedicationSerializer` output (`to_representation`): the wire object
with exactly the `Meta.fields` keys, dates in ISO `YYYY-MM-DD` form and
an absent `end_date` as JSON `null`. -/
def MedicationSerializer.to_representation (r : StoredMedication) :
    List (String × JsonValue) :=
  [("id", JsonValue.num r.id),
   ("name", JsonValue.str r.name),
   ("dose", JsonValue.str r.dose),
   ("route", JsonValue.str r.route),
   ("start_date", JsonValue.str r.start_date.isoformat),
   ("end_date", match r.end_date with
     | some e => JsonValue.str e.isoformat
     | none => JsonValue.null),
   ("facility", JsonValue.str r.facility)]

/-- Error of a retrieval: the only failure the view surfaces is a 404. -/
inductive GetError
  | notFound
deriving DecidableEq, Repr

/-- `queryset.get(pk)` as used by the viewset's retrieve: the row with
that id, or `NotFound`. -/
def Store.get (st : Store) (id : Nat) : Except GetError StoredMedication :=
  match st.rows.find? (fun r => r.id == id) with
  | some r => .ok r
  | none => .error .notFound

/-- `GET /medications/{id}/`: retrieve by id and serialize to the wire
shape, or fail with `NotFound`. -/
def get_medication (st : Store) (id : Nat) :
    Except GetError (List (String × JsonValue)) :=
  (st.get id).map MedicationSerializer.to_representation

/-- The ordering of `Medication.objects.all().order_by("start_date",
"id")`: ascending start date, ties broken by ascending id. -/
def medLe (a b : StoredMedication) : Prop :=
  Date.Lt a.start_date b.start_date ∨
    (a.start_date = b.start_date ∧ a.id ≤ b.id)

instance (a b : StoredMedication) : Decidable (medLe a b) := by
  unfold medLe; infer_instance

/-- The listing queryset of `views.py`: all rows in the fixed
`(start_date, id)` ascending order. -/
def Store.list (st : Store) : List StoredMedication :=
  List.insertionSort medLe st.rows

/-- `GET /medications/`: the ordered listing serialized to the wire. -/
def list_medications (st : Store) : List (List (String × JsonValue)) :=
  (Store.list st).map MedicationSerializer.to_representation

/-- The cross-field invariant of a persisted row: a present end date is
not before the start date. -/
def StoredMedication.datesValid (r : StoredMedication) : Prop :=
  ∀ e, r.end_date = some e → ¬ Date.Lt e r.start_date

/-- The store-wide invariant: every persisted row has a valid range. -/
def Store.invariantHolds (st : Store) : Prop :=
  ∀ r ∈ st.rows, r.datesValid

theorem Date.Lt_trans {a b c : Date} (h1 : Date.Lt a b) (h2 : Date.Lt b c) :
    Date.Lt a c := by
  obtain ⟨ay, am, ad⟩ := a
  obtain ⟨my, mm, md⟩ := b
  obtain ⟨cy, cm, cd⟩ := c
  simp only [Date.Lt] at h1 h2 ⊢
  omega

theorem Date.Lt_trichotomy (a b : Date) :
    Date.Lt a b ∨ a = b ∨ Date.Lt b a := by
  obtain ⟨ay, am, ad⟩ := a
  obtain ⟨my, mm, md⟩ := b
  simp only [Date.Lt, Date.mk.injEq]
  omega

instance : IsTrans StoredMedication medLe := by
  constructor
  intro a b c hab hbc
  rcases hab with h1 | ⟨e1, l1⟩
  · rcases hbc with h2 | ⟨e2, l2⟩
    · exact Or.inl (Date.Lt_trans h1 h2)
    · exact Or.inl (e2 ▸ h1)
  · rcases hbc with h2 | ⟨e2, l2⟩
    · exact Or.inl (e1.symm ▸ h2)
    · exact Or.inr ⟨e1.trans e2, l1.trans l2⟩

instance : IsTotal StoredMedication medLe := by
  constructor
  intro a b
  rcases Date.Lt_trichotomy a.start_date b.start_date with h | h | h
  · exact Or.inl (Or.inl h)
  · rcases Nat.le_total a.id b.id with hle | hle
    · exact Or.inl (Or.inr ⟨h, hle⟩)
    · exact Or.inr (Or.inr ⟨h.symm, hle⟩)
  · exact Or.inr (Or.inl h)

/-- C4: the listing operation always returns the sequence of all
persisted records (a permutation of the store's rows) sorted by
`start_date` ascending, with ties on `start_date` broken by `id`
ascending (the `medLe` order). -/
theorem listing_sorted_and_complete (st : Store) :
    (Store.list st).Perm st.rows ∧ List.Sorted medLe (Store.list st) :=
  ⟨List.perm_insertionSort medLe st.rows, List.sorted_insertionSort medLe st.rows⟩

/-- C7: `get_medication` fails with `NotFound` exactly when no persisted
row has the requested id — this is the only error it can produce — and
for an existing id it returns that row serialized to the wire shape. -/
theorem get_medication_spec (st : Store) (i : Nat) :
    (get_medication st i =
      match st.rows.find? (fun r => r.id == i) with
      | some r => Except.ok (MedicationSerializer.to_representation r)
      | none => Except.error GetError.notFound) ∧
    (st.rows.find? (fun r => r.id == i) = none ↔ ∀ r ∈ st.rows, r.id ≠ i) := by
  constructor
  · unfold get_medication Store.get
    cases h : st.rows.find? (fun r => r.id == i) <;> simp [Except.map]
  · simp [List.find?_eq_none]

/-- C10: the gateway's cross-field check only fires when both dates are
present in the validated data: with `start_date` absent and `end_date`
present, `validate` returns the data unchanged. -/
theorem gateway_check_needs_both_dates (p : PayloadData) (e : Date)
    (hs : p.start_date = none) (he : p.end_date = some e) :
    MedicationSerializer.validate p = Except.ok p := by
  obtain ⟨pn, pd, pr, ps, pe, pf⟩ := p
  simp only at hs he
  subst hs
  subst he
  rfl

/-- Witness for C10 at a concrete payload. -/
theorem gateway_check_needs_both_dates_witness :
    MedicationSerializer.validate
        ⟨some "Lisinopril", some "10mg", some "oral", none,
          some ⟨2024, 6, 1⟩, some "Clinic A"⟩ =
      Except.ok ⟨some "Lisinopril", some "10mg", some "oral", none,
        some ⟨2024, 6, 1⟩, some "Clinic A"⟩ :=
  gateway_check_needs_both_dates _ ⟨2024, 6, 1⟩ rfl rfl

/-- C8: `save` is atomic with respect to validation failure — whenever
it returns an error, the store is exactly the one passed in. -/
theorem save_atomic_on_error (m : Medication) (st : Store) (e : SaveError)
    (h : (m.save st).snd = Except.error e) : (m.save st).fst = st := by
  obtain ⟨i2, n2, d2, r2, s2, e2, f2⟩ := m
  unfold Medication.save at h ⊢
  cases hfc : Medication.full_clean ⟨i2, n2, d2, r2, s2, e2, f2⟩ with
  | error e3 => rfl
  | ok u =>
    cases n2 <;> cases d2 <;> cases r2 <;> cases s2 <;> cases f2 <;>
      first
        | rfl
        | (rw [hfc] at h; exact absurd h (by simp))

/-- Witness for C8: an invalid record (missing name) leaves a concrete
store untouched. -/
theorem save_atomic_on_error_witness :
    (Medication.save
        ⟨none, none, some "10mg", some "oral", some ⟨2024, 1, 1⟩, none,
          some "Clinic A"⟩ ⟨[], 1⟩).snd =
      Except.error (SaveError.validation [("name", "This field cannot be null.")]) ∧
    (Medication.save
        ⟨none, none, some "10mg", some "oral", some ⟨2024, 1, 1⟩, none,
          some "Clinic A"⟩ ⟨[], 1⟩).fst = ⟨[], 1⟩ :=
  ⟨rfl,
    save_atomic_on_error
      ⟨none, none, some "10mg", some "oral", some ⟨2024, 1, 1⟩, none,
        some "Clinic A"⟩ ⟨[], 1⟩
      (SaveError.validation [("name", "This field cannot be null.")]) rfl⟩

theorem full_clean_ok_clean (m : Medication) (h : m.full_clean = Except.ok ()) :
    m.clean = CleanResult.ok := by
  unfold Medication.full_clean at h
  cases hc : m.clean with
  | ok => rfl
  | validationError es => rw [hc] at h; simp at h
  | typeError => rw [hc] at h; simp at h

theorem clean_ok_no_bad_range (i2 : Option Nat) (n2 d2 r2 : Option String)
    (s e : Date) (f2 : Option String)
    (hok : Medication.clean ⟨i2, n2, d2, r2, some s, some e, f2⟩ = CleanResult.ok) :
    ¬ Date.Lt e s := by
  intro hlt
  simp [Medication.clean, hlt] at hok

theorem save_ok_shape (i2 : Option Nat) (n2 d2 r2 : Option String)
    (s2 e2 : Option Date) (f2 : Option String) (st st2 : Store)
    (row : StoredMedication)
    (hsave : Medication.save ⟨i2, n2, d2, r2, s2, e2, f2⟩ st = (st2, Except.ok row)) :
    Medication.full_clean ⟨i2, n2, d2, r2, s2, e2, f2⟩ = Except.ok () ∧
    n2 = some row.name ∧ d2 = some row.dose ∧ r2 = some row.route ∧
    s2 = some row.start_date ∧ e2 = row.end_date ∧ f2 = some row.facility ∧
    row.id = i2.getD st.nextId ∧
    st2 = ⟨st.rows.filter (fun x => x.id ≠ row.id) ++ [row],
      max st.nextId (row.id + 1)⟩ := by
  obtain ⟨rid, rn, rd, rr, rs, re, rf⟩ := row
  unfold Medication.save at hsave
  cases hfc : Medication.full_clean ⟨i2, n2, d2, r2, s2, e2, f2⟩ with
  | error e3 => rw [hfc] at hsave; exact absurd hsave (by simp)
  | ok u =>
    cases u
    rw [hfc] at hsave
    cases n2 <;> cases d2 <;> cases r2 <;> cases s2 <;> cases f2
    case some.some.some.some.some =>
      injection hsave with h1 h2
      injection h2 with h3
      injection h3 with g1 g2 g3 g4 g5 g6 g7
      subst g1; subst g2; subst g3; subst g4; subst g5; subst g6; subst g7
      subst h1
      exact ⟨rfl, rfl, rfl, rfl, rfl, rfl, rfl, rfl, rfl⟩
    all_goals exact absurd hsave (by simp)

theorem find_filter_append (rows : List StoredMedication)
    (row : StoredMedication) (k : Nat) (hk : row.id = k) :
    (rows.filter (fun x => x.id ≠ k) ++ [row]).find? (fun r => r.id == k)
      = some row := by
  rw [List.find?_append]
  have h1 : (rows.filter (fun x => x.id ≠ k)).find? (fun r => r.id == k) = none := by
    rw [List.find?_eq_none]
    intro x hx
    simpa using (List.mem_filter.mp hx).2
  rw [h1]
  simp [hk]

/-- C3: every record persisted through `save` satisfies the invariant
that a present `end_date` is not before `start_date`; `save` — the only
write path, used also by writers that bypass the gateway — preserves the
store-wide invariant. -/
theorem save_preserves_invariant (m : Medication) (st st2 : Store)
    (row : StoredMedication) (hInv : Store.invariantHolds st)
    (hsave : m.save st = (st2, Except.ok row)) :
    Store.invariantHolds st2 := by
  obtain ⟨i2, n2, d2, r2, s2, e2, f2⟩ := m
  obtain ⟨hfc, hn, hd, hr, hs, he, hf, hid, hst⟩ :=
    save_ok_shape i2 n2 d2 r2 s2 e2 f2 st st2 row hsave
  have hclean := full_clean_ok_clean _ hfc
  subst hst
  intro r hr
  rcases List.mem_append.mp hr with hmem | hmem
  · exact hInv r (List.mem_of_mem_filter hmem)
  · rw [List.mem_singleton] at hmem
    subst hmem
    show ∀ e, r.end_date = some e → ¬ Date.Lt e r.start_date
    intro e he2
    rw [he2] at he
    rw [hs, he] at hclean
    exact clean_ok_no_bad_range i2 n2 d2 r2 r.start_date e f2 hclean

/-- Witness for C3: saving a valid record into a concrete store that
satisfies the invariant yields a store that still satisfies it. -/
theorem save_preserves_invariant_witness :
    Store.invariantHolds ⟨[], 1⟩ ∧
    Medication.save
        ⟨none, some "Lisinopril", some "10mg", some "oral",
          some ⟨2024, 1, 1⟩, some ⟨2024, 6, 1⟩, some "Clinic A"⟩ ⟨[], 1⟩ =
      (⟨[⟨1, "Lisinopril", "10mg", "oral", ⟨2024, 1, 1⟩, some ⟨2024, 6, 1⟩,
          "Clinic A"⟩], 2⟩,
        Except.ok ⟨1, "Lisinopril", "10mg", "oral", ⟨2024, 1, 1⟩,
          some ⟨2024, 6, 1⟩, "Clinic A"⟩) ∧
    Store.invariantHolds ⟨[⟨1, "Lisinopril", "10mg", "oral", ⟨2024, 1, 1⟩,
      some ⟨2024, 6, 1⟩, "Clinic A"⟩], 2⟩ :=
  ⟨fun r hr => absurd hr (List.not_mem_nil r), rfl,
    save_preserves_invariant
      ⟨none, some "Lisinopril", some "10mg", some "oral",
        some ⟨2024, 1, 1⟩, some ⟨2024, 6, 1⟩, some "Clinic A"⟩ ⟨[], 1⟩
      ⟨[⟨1, "Lisinopril", "10mg", "oral", ⟨2024, 1, 1⟩, some ⟨2024, 6, 1⟩,
        "Clinic A"⟩], 2⟩
      ⟨1, "Lisinopril", "10mg", "oral", ⟨2024, 1, 1⟩, some ⟨2024, 6, 1⟩,
        "Clinic A"⟩
      (fun r hr => absurd hr (List.not_mem_nil r)) rfl⟩

/-- C6: for matching inputs (same present start date, same optional end
date), the store's `clean` and the gateway's `validate` implement the
same rule: they reject exactly together, with the error keyed to
`end_date` and the identical message wording, and accept exactly
together. -/
theorem gateway_store_error_contract (i2 : Option Nat)
    (n2 d2 r2 : Option String) (eo : Option Date) (f2 : Option String)
    (s : Date) (pn pd pr pf : Option String) :
    (Medication.clean ⟨i2, n2, d2, r2, some s, eo, f2⟩ =
        CleanResult.validationError
          [("end_date", "End date cannot be before start date.")] ↔
      MedicationSerializer.validate ⟨pn, pd, pr, some s, eo, pf⟩ =
        Except.error [("end_date", "End date cannot be before start date.")]) ∧
    (Medication.clean ⟨i2, n2, d2, r2, some s, eo, f2⟩ = CleanResult.ok ↔
      MedicationSerializer.validate ⟨pn, pd, pr, some s, eo, pf⟩ =
        Except.ok ⟨pn, pd, pr, some s, eo, pf⟩) := by
  cases eo with
  | none => simp [Medication.clean, MedicationSerializer.validate]
  | some e =>
    by_cases hlt : Date.Lt e s <;>
      simp [Medication.clean, MedicationSerializer.validate, hlt]

/-- C1: for every well-formed record whose `end_date` is present and
strictly earlier than its `start_date`, `save` fails with a
`ValidationError` whose errors include the `end_date` key (and persists
nothing: the store is returned unchanged), and the gateway's full input
validation fails with exactly the `end_date`-keyed error. -/
theorem invalid_range_rejected (n d rt f : String) (i : Option Nat)
    (s e : Date) (st : Store)
    (hn1 : n.length ≠ 0) (hn2 : n.length ≤ 200)
    (hd1 : d.length ≠ 0) (hd2 : d.length ≤ 100)
    (hr1 : rt.length ≠ 0) (hr2 : rt.length ≤ 50)
    (hf1 : f.length ≠ 0) (hf2 : f.length ≤ 200)
    (hlt : Date.Lt e s) :
    (∃ errs, Medication.save ⟨i, some n, some d, some rt, some s, some e, some f⟩ st
        = (st, Except.error (SaveError.validation errs)) ∧
      ("end_date", "End date cannot be before start date.") ∈ errs) ∧
    MedicationSerializer.run_validation
        ⟨some n, some d, some rt, some s, some e, some f⟩
      = Except.error [("end_date", "End date cannot be before start date.")] := by
  have hclean : Medication.clean ⟨i, some n, some d, some rt, some s, some e, some f⟩
      = CleanResult.validationError
          [("end_date", "End date cannot be before start date.")] := by
    simp [Medication.clean, hlt]
  have hfc : Medication.full_clean ⟨i, some n, some d, some rt, some s, some e, some f⟩
      = Except.error (SaveError.validation
          (Medication.clean_fields ⟨i, some n, some d, some rt, some s, some e, some f⟩ ++
            [("end_date", "End date cannot be before start date.")])) := by
    simp only [Medication.full_clean, hclean]
  refine ⟨⟨Medication.clean_fields ⟨i, some n, some d, some rt, some s, some e, some f⟩ ++
      [("end_date", "End date cannot be before start date.")], ?_, ?_⟩, ?_⟩
  · unfold Medication.save
    rw [hfc]
  · exact List.mem_append_right _ (List.mem_singleton.mpr rfl)
  · unfold MedicationSerializer.run_validation
    have hfe : MedicationSerializer.field_errors
        ⟨some n, some d, some rt, some s, some e, some f⟩ = [] := by
      simp [MedicationSerializer.field_errors, serializerCharErrors, hn1, hd1, hr1, hf1,
        Nat.not_lt.mpr hn2, Nat.not_lt.mpr hd2, Nat.not_lt.mpr hr2, Nat.not_lt.mpr hf2]
    rw [hfe]
    simp [MedicationSerializer.validate, hlt]

/-- Witness for C1: the spec's concrete scenario with
`end_date = 2023-12-31` before `start_date = 2024-01-01`. -/
theorem invalid_range_rejected_witness :
    Date.Lt ⟨2023, 12, 31⟩ ⟨2024, 1, 1⟩ ∧
    ((∃ errs, Medication.save
          ⟨none, some "Lisinopril", some "10mg", some "oral",
            some ⟨2024, 1, 1⟩, some ⟨2023, 12, 31⟩, some "Clinic A"⟩ ⟨[], 1⟩
        = (⟨[], 1⟩, Except.error (SaveError.validation errs)) ∧
      ("end_date", "End date cannot be before start date.") ∈ errs) ∧
    MedicationSerializer.run_validation
        ⟨some "Lisinopril", some "10mg", some "oral",
          some ⟨2024, 1, 1⟩, some ⟨2023, 12, 31⟩, some "Clinic A"⟩
      = Except.error [("end_date", "End date cannot be before start date.")]) :=
  ⟨by decide,
    invalid_range_rejected "Lisinopril" "10mg" "oral" "Clinic A" none
      ⟨2024, 1, 1⟩ ⟨2023, 12, 31⟩ ⟨[], 1⟩
      (by decide) (by decide) (by decide) (by decide)
      (by decide) (by decide) (by decide) (by decide) (by decide)⟩

/-- C2: for every well-formed record whose `end_date` is absent, or
present and not earlier than its `start_date`, both `save` and the
gateway's full input validation succeed without error. -/
theorem valid_range_accepted (n d rt f : String) (i : Option Nat)
    (s : Date) (eo : Option Date) (st : Store)
    (hn1 : n.length ≠ 0) (hn2 : n.length ≤ 200)
    (hd1 : d.length ≠ 0) (hd2 : d.length ≤ 100)
    (hr1 : rt.length ≠ 0) (hr2 : rt.length ≤ 50)
    (hf1 : f.length ≠ 0) (hf2 : f.length ≤ 200)
    (he : ∀ e, eo = some e → ¬ Date.Lt e s) :
    (∃ st2 row, Medication.save ⟨i, some n, some d, some rt, some s, eo, some f⟩ st
        = (st2, Except.ok row)) ∧
    MedicationSerializer.run_validation ⟨some n, some d, some rt, some s, eo, some f⟩
      = Except.ok ⟨some n, some d, some rt, some s, eo, some f⟩ := by
  have hcf : Medication.clean_fields ⟨i, some n, some d, some rt, some s, eo, some f⟩
      = [] := by
    cases eo <;>
      simp [Medication.clean_fields, charFieldErrors, dateFieldErrors, hn1, hd1, hr1, hf1,
        Nat.not_lt.mpr hn2, Nat.not_lt.mpr hd2, Nat.not_lt.mpr hr2, Nat.not_lt.mpr hf2]
  have hclean : Medication.clean ⟨i, some n, some d, some rt, some s, eo, some f⟩
      = CleanResult.ok := by
    cases heo : eo with
    | none => simp [Medication.clean]
    | some e => simp [Medication.clean, he e heo]
  have hfc : Medication.full_clean ⟨i, some n, some d, some rt, some s, eo, some f⟩
      = Except.ok () := by
    simp only [Medication.full_clean, hclean, hcf]
    rfl
  constructor
  · refine ⟨⟨st.rows.filter (fun x => x.id ≠ i.getD st.nextId) ++
        [⟨i.getD st.nextId, n, d, rt, s, eo, f⟩],
        max st.nextId (i.getD st.nextId + 1)⟩,
      ⟨i.getD st.nextId, n, d, rt, s, eo, f⟩, ?_⟩
    unfold Medication.save
    rw [hfc]
  · unfold MedicationSerializer.run_validation
    have hfe : MedicationSerializer.field_errors ⟨some n, some d, some rt, some s, eo, some f⟩
        = [] := by
      simp [MedicationSerializer.field_errors, serializerCharErrors, hn1, hd1, hr1, hf1,
        Nat.not_lt.mpr hn2, Nat.not_lt.mpr hd2, Nat.not_lt.mpr hr2, Nat.not_lt.mpr hf2]
    rw [hfe]
    cases heo : eo with
    | none => rfl
    | some e => simp [MedicationSerializer.validate, he e heo]

/-- Witness for C2: the spec's concrete scenario with
`end_date = 2024-06-01` after `start_date = 2024-01-01`. -/
theorem valid_range_accepted_witness :
    (∀ e : Date, (some (⟨2024, 6, 1⟩ : Date)) = some e →
      ¬ Date.Lt e ⟨2024, 1, 1⟩) ∧
    ((∃ st2 row, Medication.save
          ⟨none, some "Lisinopril", some "10mg", some "oral",
            some ⟨2024, 1, 1⟩, some ⟨2024, 6, 1⟩, some "Clinic A"⟩ ⟨[], 1⟩
        = (st2, Except.ok row)) ∧
    MedicationSerializer.run_validation
        ⟨some "Lisinopril", some "10mg", some "oral",
          some ⟨2024, 1, 1⟩, some ⟨2024, 6, 1⟩, some "Clinic A"⟩
      = Except.ok ⟨some "Lisinopril", some "10mg", some "oral",
          some ⟨2024, 1, 1⟩, some ⟨2024, 6, 1⟩, some "Clinic A"⟩) :=
  ⟨fun e h => by injection h with h2; subst h2; decide,
    valid_range_accepted "Lisinopril" "10mg" "oral" "Clinic A" none
      ⟨2024, 1, 1⟩ (some ⟨2024, 6, 1⟩) ⟨[], 1⟩
      (by decide) (by decide) (by decide) (by decide)
      (by decide) (by decide) (by decide) (by decide)
      (fun e h => by injection h with h2; subst h2; decide)⟩

/-- C5: a record written via `save` and read back by id through the
gateway serializes to exactly the wire shape `{id, name, dose, route,
start_date, end_date, facility}` with field-for-field equality to the
input, dates in `YYYY-MM-DD` form, and an absent `end_date` as null. -/
theorem store_roundtrip (i2 : Option Nat) (n d rt f : String) (s : Date)
    (eo : Option Date) (st st2 : Store) (row : StoredMedication)
    (hsave : Medication.save ⟨i2, some n, some d, some rt, some s, eo, some f⟩ st
      = (st2, Except.ok row)) :
    get_medication st2 row.id = Except.ok
      [("id", JsonValue.num row.id),
       ("name", JsonValue.str n),
       ("dose", JsonValue.str d),
       ("route", JsonValue.str rt),
       ("start_date", JsonValue.str (Date.isoformat s)),
       ("end_date", Option.elim eo JsonValue.null
         (fun e => JsonValue.str (Date.isoformat e))),
       ("facility", JsonValue.str f)] := by
  obtain ⟨rid, rn, rd, rr, rs, re, rf⟩ := row
  obtain ⟨hfc, hn, hd, hr, hs, he, hf, hid, hst⟩ :=
    save_ok_shape i2 (some n) (some d) (some rt) (some s) eo (some f) st st2
      ⟨rid, rn, rd, rr, rs, re, rf⟩ hsave
  injection hn with hn2
  injection hd with hd2
  injection hr with hr2
  injection hs with hs2
  injection hf with hf2
  subst hn2; subst hd2; subst hr2; subst hs2; subst hf2
  subst he
  subst hst
  have hfind := find_filter_append st.rows ⟨rid, n, d, rt, s, eo, f⟩ rid rfl
  simp only [get_medication, Store.get, hfind]
  cases eo <;> rfl

/-- Witness for C5: the spec's concrete scenario round-trips to the wire
shape with ISO-formatted dates. -/
theorem store_roundtrip_witness :
    Medication.save
        ⟨none, some "Lisinopril", some "10mg", some "oral",
          some ⟨2024, 1, 1⟩, some ⟨2024, 6, 1⟩, some "Clinic A"⟩ ⟨[], 1⟩
      = (⟨[⟨1, "Lisinopril", "10mg", "oral", ⟨2024, 1, 1⟩,
          some ⟨2024, 6, 1⟩, "Clinic A"⟩], 2⟩,
        Except.ok ⟨1, "Lisinopril", "10mg", "oral", ⟨2024, 1, 1⟩,
          some ⟨2024, 6, 1⟩, "Clinic A"⟩) ∧
    get_medication ⟨[⟨1, "Lisinopril", "10mg", "oral", ⟨2024, 1, 1⟩,
        some ⟨2024, 6, 1⟩, "Clinic A"⟩], 2⟩ 1 = Except.ok
      [("id", JsonValue.num 1),
       ("name", JsonValue.str "Lisinopril"),
       ("dose", JsonValue.str "10mg"),
       ("route", JsonValue.str "oral"),
       ("start_date", JsonValue.str "2024-01-01"),
       ("end_date", JsonValue.str "2024-06-01"),
       ("facility", JsonValue.str "Clinic A")] :=
  ⟨rfl,
    store_roundtrip none "Lisinopril" "10mg" "oral" "Clinic A" ⟨2024, 1, 1⟩
      (some ⟨2024, 6, 1⟩) ⟨[], 1⟩
      ⟨[⟨1, "Lisinopril", "10mg", "oral", ⟨2024, 1, 1⟩, some ⟨2024, 6, 1⟩,
        "Clinic A"⟩], 2⟩
      ⟨1, "Lisinopril", "10mg", "oral", ⟨2024, 1, 1⟩, some ⟨2024, 6, 1⟩,
        "Clinic A"⟩ rfl⟩

/-- C9: `save` validates every field, not only the date rule — a record
missing a required field (`name`, `dose`, `route`, `start_date`,
`facility`), or with a text field over its maximum length (name 200,
dose 100, route 50, facility 200), is rejected with a `ValidationError`
and nothing is persisted, even when the end-date rule is satisfied. -/
theorem save_validates_all_fields (m : Medication) (st : Store)
    (hend : m.end_date = none ∨
      ∃ e s, m.end_date = some e ∧ m.start_date = some s ∧ ¬ Date.Lt e s)
    (hbad : m.name = none ∨ m.name = some "" ∨
      (∃ t, m.name = some t ∧ 200 < t.length) ∨
      m.dose = none ∨ m.dose = some "" ∨
      (∃ t, m.dose = some t ∧ 100 < t.length) ∨
      m.route = none ∨ m.route = some "" ∨
      (∃ t, m.route = some t ∧ 50 < t.length) ∨
      m.start_date = none ∨
      m.facility = none ∨ m.facility = some "" ∨
      (∃ t, m.facility = some t ∧ 200 < t.length)) :
    ∃ errs, m.save st = (st, Except.error (SaveError.validation errs)) ∧
      errs ≠ [] := by
  obtain ⟨i2, n2, d2, r2, s2, e2, f2⟩ := m
  have hclean : Medication.clean ⟨i2, n2, d2, r2, s2, e2, f2⟩ = CleanResult.ok := by
    rcases hend with h | ⟨e, s, he2, hs2, hnlt⟩
    · simp only at h
      subst h
      simp [Medication.clean]
    · simp only at he2 hs2
      subst he2; subst hs2
      simp [Medication.clean, hnlt]
  have hne : Medication.clean_fields ⟨i2, n2, d2, r2, s2, e2, f2⟩ ≠ [] := by
    simp only at hbad
    rcases hbad with h | h | ⟨t, h, ht⟩ | h | h | ⟨t, h, ht⟩ | h | h | ⟨t, h, ht⟩
      | h | h | h | ⟨t, h, ht⟩ <;>
      subst h <;>
      first
        | (have h0 : t.length ≠ 0 := by omega
           simp [Medication.clean_fields, charFieldErrors, dateFieldErrors,
             List.append_eq_nil, ht, h0])
        | simp [Medication.clean_fields, charFieldErrors, dateFieldErrors,
            List.append_eq_nil]
  have hbool : ¬((Medication.clean_fields ⟨i2, n2, d2, r2, s2, e2, f2⟩).isEmpty = true) := by
    simpa [List.isEmpty_iff] using hne
  have hfcE : Medication.full_clean ⟨i2, n2, d2, r2, s2, e2, f2⟩
      = Except.error (SaveError.validation
          (Medication.clean_fields ⟨i2, n2, d2, r2, s2, e2, f2⟩)) := by
    simp only [Medication.full_clean, hclean]
    rw [if_neg hbool]
  refine ⟨_, ?_, hne⟩
  unfold Medication.save
  rw [hfcE]

/-- Witness for C9: a record with a blank name and a satisfied end-date
rule is rejected without persisting anything. -/
theorem save_validates_all_fields_witness :
    Medication.end_date ⟨none, some "", some "20mg", some "oral",
        some ⟨2024, 2, 1⟩, none, some "Clinic B"⟩ = none ∧
    Medication.name ⟨none, some "", some "20mg", some "oral",
        some ⟨2024, 2, 1⟩, none, some "Clinic B"⟩ = some "" ∧
    (∃ errs, Medication.save ⟨none, some "", some "20mg", some "oral",
          some ⟨2024, 2, 1⟩, none, some "Clinic B"⟩ ⟨[], 1⟩
        = (⟨[], 1⟩, Except.error (SaveError.validation errs)) ∧ errs ≠ []) :=
  ⟨rfl, rfl,
    save_validates_all_fields
      ⟨none, some "", some "20mg", some "oral", some ⟨2024, 2, 1⟩, none,
        some "Clinic B"⟩ ⟨[], 1⟩
      (Or.inl rfl) (Or.inr (Or.inl rfl))⟩

end MediTimeline
